import Mathlib

/-!
Verification of the fusegu fraud-scoring pipeline.

This file gives a shallow embedding, in Lean 4, of the rule-evaluation and
scoring pipeline of the fusegu repository and proves the stated properties
about it.  The embedding follows the Rust source:

* `src/rules/mod.rs`      : `RuleHit`, `RulePriority`, `RuleConfig`
* `src/rules/context.rs`  : `RuleContext`, `FeatureStore`, typed accessors
* `src/rules/fraud_rules.rs` : the three reference rules
* `src/rules/engine.rs`   : `RuleEngine`, `RuleMetrics`, `RuleEngine::evaluate`,
                            `set_rule_enabled`, `set_rule_weight`
* `src/scoring/mod.rs`    : `ScoringEngine`, `ScoringConfig`, `RiskThresholds`,
                            `calculate_score`, `normalize_score`,
                            `calculate_risk_level`, `calculate_disposition`
* `src/models/common.rs`  : `RiskLevel`, `Disposition`

Modelling conventions.  Rust `f64` scores, weights and thresholds are modelled
as rational numbers `ℚ` (every literal appearing in the code is a decimal
fraction, hence exactly representable); only the sigmoid normalisation, which
uses the transcendental `exp`, is modelled over the reals `ℝ`.  `uuid::Uuid`
is modelled as `Nat`, `IpAddr` as `String`, `rust_decimal::Decimal` amounts as
`ℚ` (the conversion `Decimal -> string -> f64` in `RuleContext::order_amount`
is value-preserving and is modelled as the identity).  `anyhow::Result<T>` is
modelled as `Except String T`.  Wall-clock timing fields
(`evaluation_time_ms`, `evaluation_times`) and `serde_json` metadata payloads
are not modelled: they carry no decision logic.  Rust `Vec::sort_by` is a
stable sort keyed by a total preorder; the stable sorted permutation for a
total preorder is unique, so it is modelled by `List.insertionSort`, which is
stable under the same comparator.
-/

namespace Fusegu

/-! ### models/common.rs -/

/-- Risk levels, from `src/models/common.rs`. -/
inductive RiskLevel
  | Low
  | Medium
  | High
  | VeryHigh
deriving DecidableEq

/-- Dispositions, from `src/models/common.rs`. -/
inductive Disposition
  | Accept
  | Reject
  | Review
  | Test
deriving DecidableEq

/-! ### rules/mod.rs -/

/-- Priority level for fraud rules (`src/rules/mod.rs`). -/
inductive RulePriority
  | Low
  | Medium
  | High
  | Critical
deriving DecidableEq

/-- The discriminant values assigned in the Rust `enum` declaration
(`Low = 1, Medium = 2, High = 3, Critical = 4`); `Ord` on the Rust enum
compares these. -/
def RulePriority.toNat : RulePriority → Nat
  | .Low => 1
  | .Medium => 2
  | .High => 3
  | .Critical => 4

/-- Result of a fraud rule evaluation (`RuleHit` in `src/rules/mod.rs`).
The optional `serde_json` metadata field is not modelled. -/
structure RuleHit where
  rule_name : String
  score : ℚ
  reason : String
deriving DecidableEq

/-- Configuration for a fraud rule (`RuleConfig` in `src/rules/mod.rs`). -/
structure RuleConfig where
  name : String
  enabled : Bool
  priority : RulePriority
  weight : ℚ
deriving DecidableEq

/-! ### rules/context.rs -/

/-- `OrderRequest` (`src/models/requests.rs`), the fields read by the
pipeline.  `amount` is `Option<Decimal>` in the source. -/
structure OrderRequest where
  amount : Option ℚ
  currency : Option String
deriving DecidableEq

/-- `DeviceRequest` (`src/models/requests.rs`): `ip_address` is mandatory. -/
structure DeviceRequest where
  ip_address : String
deriving DecidableEq

/-- `EmailRequest` (`src/models/requests.rs`). -/
structure EmailRequest where
  address : String
deriving DecidableEq

/-- The slice of `TransactionRequest` (`src/models/requests.rs`) that the
rule context accessors read. -/
structure TransactionRequest where
  device : DeviceRequest
  order : Option OrderRequest
  email : Option EmailRequest
  user_id : Option Nat
deriving DecidableEq

/-- `User` (`src/models/user.rs`), reduced to the id read by the rules. -/
structure User where
  id : Nat
deriving DecidableEq

/-- `Device` (`src/models/device.rs`), reduced to the fields read here. -/
structure Device where
  id : Nat
  ip_address : String
deriving DecidableEq

/-- The `FeatureStore` trait (`src/rules/context.rs`): deterministic
point-lookup responses, each of which may fail with an operational error. -/
structure FeatureStore where
  get_user_transaction_count : Nat → Nat → Except String Nat
  get_user_transaction_amount : Nat → Nat → Except String ℚ
  get_ip_transaction_count : String → Nat → Except String Nat
  get_email_domain_risk : String → Except String ℚ
  is_anonymous_ip : String → Except String Bool
  get_ip_country : String → Except String (Option String)
  get_device_transaction_count : Nat → Nat → Except String Nat
  get_address_transaction_count : String → Nat → Except String Nat
  get_user_average_amount : Nat → Except String ℚ
  get_card_bin_transaction_count : String → Nat → Except String Nat
  is_prepaid_card : String → Except String Bool
  calculate_distance : ℚ → ℚ → ℚ → ℚ → Except String ℚ

/-- `RuleContext` (`src/rules/context.rs`).  The free-form metadata map is
modelled as an association list. -/
structure RuleContext where
  transaction : TransactionRequest
  user : Option User
  device : Option Device
  feature_store : FeatureStore
  metadata : List (String × String)

/-- `RuleContext::order_amount`: `self.transaction.order.as_ref()
.and_then(|order| order.amount).map(|a| a.to_string().parse().unwrap_or(0.0))`.
The `Decimal -> f64` conversion is modelled as the identity. -/
def RuleContext.order_amount (ctx : RuleContext) : Option ℚ :=
  ctx.transaction.order.bind fun o => o.amount

/-- `RuleContext::user_id`. -/
def RuleContext.user_id (ctx : RuleContext) : Option Nat :=
  ctx.user.map fun u => u.id

/-- `RuleContext::ip_address`. -/
def RuleContext.ip_address (ctx : RuleContext) : String :=
  ctx.transaction.device.ip_address

/-- `RuleContext::email_address`. -/
def RuleContext.email_address (ctx : RuleContext) : Option String :=
  ctx.transaction.email.map fun e => e.address

/-! ### rules/fraud_rules.rs -/

/-- The `FraudRule` trait: a name, a priority and an evaluation function
which may fail, and otherwise reports either no finding or a `RuleHit`. -/
structure FraudRule where
  name : String
  priority : RulePriority
  evaluate : RuleContext → Except String (Option RuleHit)

/-- `HighRiskIpRule` (`src/rules/fraud_rules.rs`). -/
def HighRiskIpRule : FraudRule where
  name := "high_risk_ip"
  priority := .High
  evaluate := fun ctx => do
    let is_anonymous ← ctx.feature_store.is_anonymous_ip ctx.ip_address
    if is_anonymous then
      pure (some ⟨"high_risk_ip", 50, "Transaction from anonymous IP (VPN/Proxy/Tor)"⟩)
    else
      pure none

/-- `VelocityRule` (`src/rules/fraud_rules.rs`). -/
def VelocityRule : FraudRule where
  name := "velocity_check"
  priority := .Critical
  evaluate := fun ctx =>
    match ctx.user with
    | some user => do
        let count ← ctx.feature_store.get_user_transaction_count user.id 1
        if count > 10 then
          pure (some ⟨"velocity_check", 80,
            "User has " ++ toString count ++ " transactions in the last hour"⟩)
        else
          pure none
    | none => .ok none

/-- `SuspiciousAmountRule` (`src/rules/fraud_rules.rs`). -/
def SuspiciousAmountRule : FraudRule where
  name := "suspicious_amount"
  priority := .Medium
  evaluate := fun ctx =>
    match ctx.order_amount with
    | some amount =>
        if amount > 10000 then
          .ok (some ⟨"suspicious_amount", 30, "High transaction amount"⟩)
        else if amount = 0 then
          .ok (some ⟨"suspicious_amount", 20, "Zero amount transaction"⟩)
        else
          .ok none
    | none => .ok none

/-- `get_default_fraud_rules` (`src/rules/fraud_rules.rs`). -/
def get_default_fraud_rules : List FraudRule :=
  [HighRiskIpRule, VelocityRule, SuspiciousAmountRule]

/-! ### rules/engine.rs -/

/-- `RuleMetrics` (`src/rules/engine.rs`).  The `HashMap<String, u64>` of
hit counters is modelled as an association list; the per-rule latency
samples (`evaluation_times`) record wall-clock time and are not modelled. -/
structure RuleMetrics where
  total_evaluations : Nat
  rule_hits : List (String × Nat)
deriving DecidableEq

/-- `RuleEvaluationResult` (`src/rules/engine.rs`); the wall-clock
`evaluation_time_ms` field is not modelled. -/
structure RuleEvaluationResult where
  hits : List RuleHit
  total_score : ℚ
  rule_count : Nat
deriving DecidableEq

/-- `RuleEngine` (`src/rules/engine.rs`). -/
structure RuleEngine where
  rules : List (FraudRule × RuleConfig)
  metrics : RuleMetrics

/-- The comparator `|a, b| b.1.priority.cmp(&a.1.priority)` used on the rule
list: descending rule priority (in the Rust pair the `.1` component is the
`RuleConfig`). -/
def prioDesc (a b : FraudRule × RuleConfig) : Prop :=
  b.2.priority.toNat ≤ a.2.priority.toNat

instance : DecidableRel prioDesc := fun a b =>
  inferInstanceAs (Decidable (b.2.priority.toNat ≤ a.2.priority.toNat))

instance : IsTotal (FraudRule × RuleConfig) prioDesc :=
  ⟨fun a b => Nat.le_total b.2.priority.toNat a.2.priority.toNat⟩

instance : IsTrans (FraudRule × RuleConfig) prioDesc :=
  ⟨fun _ _ _ hab hbc => Nat.le_trans hbc hab⟩

/-- The comparator `|a, b| b.score.partial_cmp(&a.score)` used on the final
hit list: descending weighted score. -/
def scoreDesc (a b : RuleHit) : Prop :=
  b.score ≤ a.score

instance : DecidableRel scoreDesc := fun a b =>
  inferInstanceAs (Decidable (b.score ≤ a.score))

/-- `*self.metrics.rule_hits.entry(name).or_insert(0) += 1`. -/
def bumpHit : List (String × Nat) → String → List (String × Nat)
  | [], n => [(n, 1)]
  | (k, v) :: rest, n =>
      if k = n then (k, v + 1) :: rest else (k, v) :: bumpHit rest n

/-- The mutable state of the `for` loop in `RuleEngine::evaluate`. -/
structure LoopState where
  hits : List RuleHit
  total_score : ℚ
  evaluated_count : Nat
  rule_hits : List (String × Nat)

/-- One iteration of the loop body of `RuleEngine::evaluate`: disabled rules
are skipped; on a finding the raw score is multiplied by the configured
weight and accumulated; on no finding or on error nothing is accumulated;
the evaluated count is incremented for every enabled rule. -/
def evalStep (ctx : RuleContext) (s : LoopState) (rc : FraudRule × RuleConfig) :
    LoopState :=
  if rc.2.enabled then
    match rc.1.evaluate ctx with
    | .ok (some hit) =>
        let hit := { hit with score := hit.score * rc.2.weight }
        { hits := s.hits ++ [hit]
          total_score := s.total_score + hit.score
          evaluated_count := s.evaluated_count + 1
          rule_hits := bumpHit s.rule_hits rc.1.name }
    | .ok none => { s with evaluated_count := s.evaluated_count + 1 }
    | .error _ => { s with evaluated_count := s.evaluated_count + 1 }
  else s

/-- `RuleEngine::evaluate` (`src/rules/engine.rs`): sort the rules by
descending priority (stable), run the loop, bump the total-evaluations
counter, sort the hits by descending weighted score (stable), and return
`Ok` with the updated engine state and the aggregate. -/
def RuleEngine.evaluate (eng : RuleEngine) (ctx : RuleContext) :
    Except String (RuleEngine × RuleEvaluationResult) :=
  let sorted := List.insertionSort prioDesc eng.rules
  let final := sorted.foldl (evalStep ctx) ⟨[], 0, 0, eng.metrics.rule_hits⟩
  let metrics : RuleMetrics := ⟨eng.metrics.total_evaluations + 1, final.rule_hits⟩
  let hits := List.insertionSort scoreDesc final.hits
  .ok ({ eng with metrics := metrics },
       { hits := hits
         total_score := final.total_score
         rule_count := final.evaluated_count })

/-- The loop of `RuleEngine::set_rule_enabled`: update the first rule whose
name matches and `break`. -/
def setEnabledFirst (rules : List (FraudRule × RuleConfig)) (rule_name : String)
    (enabled : Bool) : List (FraudRule × RuleConfig) :=
  match rules with
  | [] => []
  | (r, c) :: rest =>
      if r.name = rule_name then (r, { c with enabled := enabled }) :: rest
      else (r, c) :: setEnabledFirst rest rule_name enabled

/-- The loop of `RuleEngine::set_rule_weight`. -/
def setWeightFirst (rules : List (FraudRule × RuleConfig)) (rule_name : String)
    (weight : ℚ) : List (FraudRule × RuleConfig) :=
  match rules with
  | [] => []
  | (r, c) :: rest =>
      if r.name = rule_name then (r, { c with weight := weight }) :: rest
      else (r, c) :: setWeightFirst rest rule_name weight

/-- `RuleEngine::set_rule_enabled` (`src/rules/engine.rs`). -/
def RuleEngine.set_rule_enabled (eng : RuleEngine) (rule_name : String)
    (enabled : Bool) : RuleEngine :=
  { eng with rules := setEnabledFirst eng.rules rule_name enabled }

/-- `RuleEngine::set_rule_weight` (`src/rules/engine.rs`). -/
def RuleEngine.set_rule_weight (eng : RuleEngine) (rule_name : String)
    (weight : ℚ) : RuleEngine :=
  { eng with rules := setWeightFirst eng.rules rule_name weight }

/-! ### scoring/mod.rs -/

/-- Score thresholds for risk levels (`RiskThresholds` in `src/scoring/mod.rs`). -/
structure RiskThresholds where
  low : ℚ
  medium : ℚ
  high : ℚ
deriving DecidableEq

/-- `impl Default for RiskThresholds`. -/
def RiskThresholds.default : RiskThresholds :=
  { low := 10, medium := 30, high := 70 }

/-- `ScoringConfig` (`src/scoring/mod.rs`). -/
structure ScoringConfig where
  base_score : ℚ
  max_score : ℚ
  risk_thresholds : RiskThresholds
  normalize_scores : Bool
deriving DecidableEq

/-- `impl Default for ScoringConfig`. -/
def ScoringConfig.default : ScoringConfig :=
  { base_score := 1
    max_score := 99.99
    risk_thresholds := RiskThresholds.default
    normalize_scores := true }

/-- Per-rule contribution entry of the audit breakdown
(`RuleContribution` in `src/scoring/mod.rs`). -/
structure RuleContribution where
  rule_name : String
  score : ℚ
  weight : ℚ
  weighted_score : ℚ
  reason : String
deriving DecidableEq

/-- `ScoreBreakdown` (`src/scoring/mod.rs`).  The normalised score may pass
through the sigmoid, hence is a real number. -/
structure ScoreBreakdown where
  base_score : ℚ
  rule_score : ℚ
  total_score : ℚ
  normalized_score : ℝ
  rule_count : Nat

/-- `ScoringResult` (`src/scoring/mod.rs`).  `risk_score` is
`Decimal::from_f64_retain(normalized_score)`; the conversion is modelled as
the identity (the normalised score is always within `Decimal` range). -/
structure ScoringResult where
  risk_score : ℝ
  risk_level : RiskLevel
  disposition : Disposition
  rule_contributions : List RuleContribution
  score_breakdown : ScoreBreakdown

/-- `ScoringEngine` (`src/scoring/mod.rs`): a wrapper around its config. -/
structure ScoringEngine where
  config : ScoringConfig

/-- `ScoringEngine::normalize_score`:
`max_score * (1.0 / (1.0 + (-score / 20.0).exp()))` followed by
`.max(0.01).min(max_score)`. -/
noncomputable def ScoringEngine.normalize_score (se : ScoringEngine) (score : ℝ) : ℝ :=
  min (max ((se.config.max_score : ℝ) * (1 / (1 + Real.exp (-score / 20)))) 0.01)
    (se.config.max_score : ℝ)

/-- `ScoringEngine::calculate_risk_level`: nested `if score < threshold`
comparisons against the three configured thresholds. -/
noncomputable def ScoringEngine.calculate_risk_level (se : ScoringEngine) (score : ℝ) :
    RiskLevel :=
  if score < (se.config.risk_thresholds.low : ℝ) then .Low
  else if score < (se.config.risk_thresholds.medium : ℝ) then .Medium
  else if score < (se.config.risk_thresholds.high : ℝ) then .High
  else .VeryHigh

/-- `ScoringEngine::calculate_disposition`. -/
def ScoringEngine.calculate_disposition (_se : ScoringEngine) (risk_level : RiskLevel) :
    Disposition :=
  match risk_level with
  | .Low => .Accept
  | .Medium => .Review
  | .High => .Reject
  | .VeryHigh => .Reject

/-- `ScoringEngine::calculate_score` (`src/scoring/mod.rs`).  Note that the
source populates each `RuleContribution` with `score: hit.score` (the score
already weighted by the engine), `weight: 1.0` (a placeholder marked
`TODO: Get actual weight from rule config`) and
`weighted_score: hit.score`. -/
noncomputable def ScoringEngine.calculate_score (se : ScoringEngine)
    (rule_result : RuleEvaluationResult) : ScoringResult :=
  let rule_contributions : List RuleContribution := rule_result.hits.map fun hit =>
    { rule_name := hit.rule_name
      score := hit.score
      weight := 1
      weighted_score := hit.score
      reason := hit.reason }
  let rule_score := rule_result.total_score
  let total_score := se.config.base_score + rule_score
  let normalized_score : ℝ :=
    if se.config.normalize_scores then se.normalize_score (total_score : ℝ)
    else min (total_score : ℝ) (se.config.max_score : ℝ)
  let risk_level := se.calculate_risk_level normalized_score
  let disposition := se.calculate_disposition risk_level
  { risk_score := normalized_score
    risk_level := risk_level
    disposition := disposition
    rule_contributions := rule_contributions
    score_breakdown :=
      { base_score := se.config.base_score
        rule_score := rule_score
        total_score := total_score
        normalized_score := normalized_score
        rule_count := rule_result.hits.length } }

/-! ### Characterisation of the evaluation loop -/

/-- The contribution of a single registered rule to `total_score` in one
pass: its raw score times its configured weight when it is enabled and
returns a finding, and `0` when it is disabled, returns no finding, or
fails. -/
def ruleContribution (ctx : RuleContext) (rc : FraudRule × RuleConfig) : ℚ :=
  if rc.2.enabled then
    match rc.1.evaluate ctx with
    | .ok (some hit) => hit.score * rc.2.weight
    | .ok none => 0
    | .error _ => 0
  else 0

/-- The weighted hit a registered rule appends to the hit list in one pass,
if any. -/
def hitOf (ctx : RuleContext) (rc : FraudRule × RuleConfig) : Option RuleHit :=
  if rc.2.enabled then
    match rc.1.evaluate ctx with
    | .ok (some hit) => some { hit with score := hit.score * rc.2.weight }
    | .ok none => none
    | .error _ => none
  else none

/-- The name under which a registered rule bumps its hit counter in one
pass, if any. -/
def hitNameOf (ctx : RuleContext) (rc : FraudRule × RuleConfig) : Option String :=
  if rc.2.enabled then
    match rc.1.evaluate ctx with
    | .ok (some _) => some rc.1.name
    | .ok none => none
    | .error _ => none
  else none

theorem evalStep_spec (ctx : RuleContext) (s : LoopState) (rc : FraudRule × RuleConfig) :
    evalStep ctx s rc =
      { hits := s.hits ++ (hitOf ctx rc).toList
        total_score := s.total_score + ruleContribution ctx rc
        evaluated_count := s.evaluated_count + (if rc.2.enabled then 1 else 0)
        rule_hits :=
          match hitNameOf ctx rc with
          | some n => bumpHit s.rule_hits n
          | none => s.rule_hits } := by
  unfold evalStep hitOf ruleContribution hitNameOf
  by_cases he : rc.2.enabled
  · simp only [he, if_true]
    rcases hev : rc.1.evaluate ctx with e | o
    · simp
    · rcases o with _ | hit <;> simp
  · simp [he]

theorem foldl_evalStep_spec (ctx : RuleContext) :
    ∀ (l : List (FraudRule × RuleConfig)) (s : LoopState),
      l.foldl (evalStep ctx) s =
        { hits := s.hits ++ l.filterMap (hitOf ctx)
          total_score := s.total_score + (l.map (ruleContribution ctx)).sum
          evaluated_count := s.evaluated_count + l.countP (fun rc => rc.2.enabled)
          rule_hits := (l.filterMap (hitNameOf ctx)).foldl bumpHit s.rule_hits }
  | [], s => by simp
  | rc :: l, s => by
    rw [List.foldl_cons, foldl_evalStep_spec ctx l (evalStep ctx s rc), evalStep_spec]
    simp only [List.filterMap_cons, List.map_cons, List.sum_cons, List.countP_cons,
      LoopState.mk.injEq]
    refine ⟨?_, ?_, ?_, ?_⟩
    · rcases h : hitOf ctx rc with _ | hit <;> simp [h]
    · ring
    · by_cases he : rc.2.enabled
      · simp [he]
        omega
      · simp [he]
    · rcases h : hitNameOf ctx rc with _ | n <;> simp [h]

/-- Closed form of `RuleEngine::evaluate`: it always returns `Ok`, the hit
list is the priority-stable-sorted rule list filtered down to the weighted
findings and re-sorted by descending weighted score, the total is the sum of
the per-rule contributions, the rule count is the number of enabled rules,
and the metrics are bumped. -/
theorem evaluate_eq (eng : RuleEngine) (ctx : RuleContext) :
    eng.evaluate ctx = .ok
      ({ rules := eng.rules,
         metrics :=
           ⟨eng.metrics.total_evaluations + 1,
            ((List.insertionSort prioDesc eng.rules).filterMap (hitNameOf ctx)).foldl
              bumpHit eng.metrics.rule_hits⟩ },
       { hits := List.insertionSort scoreDesc
           ((List.insertionSort prioDesc eng.rules).filterMap (hitOf ctx))
         total_score :=
           ((List.insertionSort prioDesc eng.rules).map (ruleContribution ctx)).sum
         rule_count :=
           (List.insertionSort prioDesc eng.rules).countP fun rc => rc.2.enabled }) := by
  simp [RuleEngine.evaluate, foldl_evalStep_spec]

/-! ### Stability of the priority sort

`Vec::sort_by` is stable, so removing one element from the input removes
exactly that element from the output, leaving the relative order of all
other elements unchanged.  The two lemmas below express this for
`List.insertionSort`. -/

theorem orderedInsert_middle {α : Type} (r : α → α → Prop) [DecidableRel r]
    [IsTrans α r] (a x : α) :
    ∀ (P₁ P₂ : List α), List.Sorted r (P₁ ++ x :: P₂) →
      ∃ Q₁ Q₂, List.orderedInsert r a (P₁ ++ x :: P₂) = Q₁ ++ x :: Q₂ ∧
        List.orderedInsert r a (P₁ ++ P₂) = Q₁ ++ Q₂
  | [], P₂, hs => by
    simp only [List.nil_append] at hs ⊢
    by_cases hax : r a x
    · refine ⟨[a], P₂, by simp [List.orderedInsert, hax], ?_⟩
      cases P₂ with
      | nil => simp [List.orderedInsert]
      | cons b t =>
        have hxb : r x b := List.rel_of_sorted_cons hs b (by simp)
        have hab : r a b := IsTrans.trans a x b hax hxb
        simp [List.orderedInsert, hab]
    · exact ⟨[], List.orderedInsert r a P₂, by simp [List.orderedInsert, hax], by simp⟩
  | p :: P₁, P₂, hs => by
    by_cases hap : r a p
    · exact ⟨a :: p :: P₁, P₂, by simp [List.orderedInsert, hap],
        by simp [List.orderedInsert, hap]⟩
    · obtain ⟨Q₁, Q₂, h1, h2⟩ :=
        orderedInsert_middle r a x P₁ P₂ (List.Sorted.of_cons (by simpa using hs))
      exact ⟨p :: Q₁, Q₂, by simp [List.orderedInsert, hap, h1],
        by simp [List.orderedInsert, hap, h2]⟩

theorem insertionSort_middle {α : Type} (r : α → α → Prop) [DecidableRel r]
    [IsTotal α r] [IsTrans α r] :
    ∀ (A B : List α) (x : α),
      ∃ P₁ P₂, List.insertionSort r (A ++ x :: B) = P₁ ++ x :: P₂ ∧
        List.insertionSort r (A ++ B) = P₁ ++ P₂
  | [], B, x => by
    refine ⟨(List.insertionSort r B).takeWhile (fun b => ¬r x b),
      (List.insertionSort r B).dropWhile (fun b => ¬r x b), ?_, ?_⟩
    · simpa [List.insertionSort] using
        List.orderedInsert_eq_take_drop r x (List.insertionSort r B)
    · simp only [List.nil_append]
      exact (List.takeWhile_append_dropWhile
        (fun b => decide (¬r x b)) (List.insertionSort r B)).symm
  | a :: A, B, x => by
    obtain ⟨P₁, P₂, h1, h2⟩ := insertionSort_middle r A B x
    have hsorted : List.Sorted r (P₁ ++ x :: P₂) := by
      rw [← h1]; exact List.sorted_insertionSort r _
    obtain ⟨Q₁, Q₂, g1, g2⟩ := orderedInsert_middle r a x P₁ P₂ hsorted
    refine ⟨Q₁, Q₂, ?_, ?_⟩
    · simp only [List.cons_append, List.insertionSort, List.append_eq]
      rw [h1]; exact g1
    · simp only [List.cons_append, List.insertionSort, List.append_eq]
      rw [h2]; exact g2

/-! ### Concrete fixtures used by witnesses and counterexamples -/

/-- A feature store whose every lookup succeeds with a neutral value. -/
def fsEx : FeatureStore where
  get_user_transaction_count := fun _ _ => .ok 0
  get_user_transaction_amount := fun _ _ => .ok 0
  get_ip_transaction_count := fun _ _ => .ok 0
  get_email_domain_risk := fun _ => .ok 0
  is_anonymous_ip := fun _ => .ok false
  get_ip_country := fun _ => .ok none
  get_device_transaction_count := fun _ _ => .ok 0
  get_address_transaction_count := fun _ _ => .ok 0
  get_user_average_amount := fun _ => .ok 0
  get_card_bin_transaction_count := fun _ _ => .ok 0
  is_prepaid_card := fun _ => .ok false
  calculate_distance := fun _ _ _ _ => .ok 0

/-- A concrete rule context: an order of amount 1 USD from 203.0.113.7. -/
def ctxEx : RuleContext where
  transaction :=
    { device := ⟨"203.0.113.7"⟩
      order := some ⟨some 1, some "USD"⟩
      email := none
      user_id := none }
  user := none
  device := none
  feature_store := fsEx
  metadata := []

/-- Extract the total score from the value `RuleEngine::evaluate` returns. -/
def totalScoreOf : Except String (RuleEngine × RuleEvaluationResult) → ℚ
  | .ok (_, res) => res.total_score
  | .error _ => 0

/-- Extract the evaluation result from the value `RuleEngine::evaluate`
returns. -/
def resultOf : Except String (RuleEngine × RuleEvaluationResult) → RuleEvaluationResult
  | .ok (_, res) => res
  | .error _ => ⟨[], 0, 0⟩

/-! ### The claims -/

/-- C1: For every rule set and every context, the evaluation result's
`total_score` equals the sum over triggered rules of raw score times the
rule's configured weight; a rule that returns no finding, is disabled, or
fails contributes exactly 0 (see `ruleContribution`). -/
theorem evaluate_total_score_eq_weighted_sum (eng : RuleEngine) (ctx : RuleContext) :
    ∃ eng2 res, eng.evaluate ctx = .ok (eng2, res) ∧
      res.total_score = (eng.rules.map (ruleContribution ctx)).sum := by
  refine ⟨_, _, evaluate_eq eng ctx, ?_⟩
  exact ((List.perm_insertionSort prioDesc eng.rules).map (ruleContribution ctx)).sum_eq

/-- C5: Disposition is a pure total function of risk level with exactly the
mapping Low to Accept, Medium to Review, High to Reject, VeryHigh to Reject;
`calculate_disposition` reads no state besides its argument. -/
theorem calculate_disposition_mapping (se : ScoringEngine) :
    se.calculate_disposition .Low = .Accept ∧
    se.calculate_disposition .Medium = .Review ∧
    se.calculate_disposition .High = .Reject ∧
    se.calculate_disposition .VeryHigh = .Reject ∧
    ∀ l, (se.calculate_disposition l = .Accept ↔ l = .Low) ∧
      (se.calculate_disposition l = .Review ↔ l = .Medium) ∧
      (se.calculate_disposition l = .Reject ↔ l = .High ∨ l = .VeryHigh) := by
  refine ⟨rfl, rfl, rfl, rfl, fun l => ?_⟩
  cases l <;> simp [ScoringEngine.calculate_disposition]

/-- C7: In every evaluation pass every enabled rule is evaluated — there is
no early exit — so the returned `rule_count` equals the number of enabled
rules (not just those that fired), and the cumulative total-evaluations
counter is incremented exactly once per call. -/
theorem evaluate_rule_count_and_counter (eng : RuleEngine) (ctx : RuleContext) :
    ∃ eng2 res, eng.evaluate ctx = .ok (eng2, res) ∧
      res.rule_count = eng.rules.countP (fun rc => rc.2.enabled) ∧
      eng2.metrics.total_evaluations = eng.metrics.total_evaluations + 1 := by
  refine ⟨_, _, evaluate_eq eng ctx, ?_, rfl⟩
  exact (List.perm_insertionSort prioDesc eng.rules).countP_eq _

/-- C9: The suspicious-amount rule fires with raw score 30 exactly when the
order amount is strictly greater than 10000, fires with raw score 20 exactly
when the amount equals 0, and returns no finding otherwise or when the order
amount is absent, failing soft rather than raising. -/
theorem suspicious_amount_rule_spec (ctx : RuleContext) :
    ((∃ h, SuspiciousAmountRule.evaluate ctx = .ok (some h) ∧ h.score = 30) ↔
      ∃ a, ctx.order_amount = some a ∧ 10000 < a) ∧
    ((∃ h, SuspiciousAmountRule.evaluate ctx = .ok (some h) ∧ h.score = 20) ↔
      ctx.order_amount = some 0) ∧
    (ctx.order_amount = none → SuspiciousAmountRule.evaluate ctx = .ok none) ∧
    (∀ a, ctx.order_amount = some a → a ≤ 10000 → a ≠ 0 →
      SuspiciousAmountRule.evaluate ctx = .ok none) ∧
    ∃ res, SuspiciousAmountRule.evaluate ctx = .ok res := by
  rcases hoa : ctx.order_amount with _ | a
  · simp [SuspiciousAmountRule, hoa]
  · by_cases h1 : a > 10000
    · have ha0 : a ≠ 0 := by intro h; rw [h] at h1; norm_num at h1
      simp [SuspiciousAmountRule, hoa, h1, ha0]
    · by_cases h0 : a = 0
      · subst h0
        simp [SuspiciousAmountRule, hoa, h1]
      · simp [SuspiciousAmountRule, hoa, h1, h0]

/-- First-match update characterisation shared by `set_rule_enabled` and
`set_rule_weight`. -/
theorem setFirst_spec :
    ∀ (l : List (FraudRule × RuleConfig)) (n : String) (b : Bool) (w : ℚ),
      ((∀ rc ∈ l, rc.1.name ≠ n) ∧ setEnabledFirst l n b = l ∧ setWeightFirst l n w = l) ∨
      (∃ A r c B, l = A ++ (r, c) :: B ∧ (∀ rc ∈ A, rc.1.name ≠ n) ∧ r.name = n ∧
        setEnabledFirst l n b = A ++ (r, { c with enabled := b }) :: B ∧
        setWeightFirst l n w = A ++ (r, { c with weight := w }) :: B)
  | [], n, b, w => .inl ⟨by simp, rfl, rfl⟩
  | (r, c) :: rest, n, b, w => by
    by_cases h : r.name = n
    · exact .inr ⟨[], r, c, rest, rfl, by simp, h,
        by simp [setEnabledFirst, h], by simp [setWeightFirst, h]⟩
    · rcases setFirst_spec rest n b w with ⟨hnone, he, hw⟩ | ⟨A, r2, c2, B, hl, hA, hr2, he, hw⟩
      · refine .inl ⟨?_, ?_, ?_⟩
        · intro rc hrc
          rcases List.mem_cons.mp hrc with hrc | hrc
          · rw [hrc]; exact h
          · exact hnone rc hrc
        · simp [setEnabledFirst, h, he]
        · simp [setWeightFirst, h, hw]
      · refine .inr ⟨(r, c) :: A, r2, c2, B, by rw [hl]; rfl, ?_, hr2, ?_, ?_⟩
        · intro rc hrc
          rcases List.mem_cons.mp hrc with hrc | hrc
          · rw [hrc]; exact h
          · exact hA rc hrc
        · simp [setEnabledFirst, h, he]
        · simp [setWeightFirst, h, hw]

/-- C10: `set_rule_enabled` and `set_rule_weight` modify at most the
configuration of the first registered rule whose name matches, leaving every
other rule, the rest of that rule's configuration, and the metrics
unchanged; when no rule matches, the engine is unchanged (and neither
operation can report an error: both are total). -/
theorem set_rule_ops_frame (eng : RuleEngine) (n : String) (b : Bool) (w : ℚ) :
    (eng.set_rule_enabled n b).metrics = eng.metrics ∧
    (eng.set_rule_weight n w).metrics = eng.metrics ∧
    (((∀ rc ∈ eng.rules, rc.1.name ≠ n) ∧
        eng.set_rule_enabled n b = eng ∧ eng.set_rule_weight n w = eng) ∨
      ∃ A r c B, eng.rules = A ++ (r, c) :: B ∧ (∀ rc ∈ A, rc.1.name ≠ n) ∧ r.name = n ∧
        (eng.set_rule_enabled n b).rules = A ++ (r, { c with enabled := b }) :: B ∧
        (eng.set_rule_weight n w).rules = A ++ (r, { c with weight := w }) :: B) := by
  refine ⟨rfl, rfl, ?_⟩
  rcases setFirst_spec eng.rules n b w with ⟨h1, h2, h3⟩ | ⟨A, r, c, B, hl, hA, hr, he, hw⟩
  · refine .inl ⟨h1, ?_, ?_⟩
    · show { eng with rules := setEnabledFirst eng.rules n b } = eng
      rw [h2]
    · show { eng with rules := setWeightFirst eng.rules n w } = eng
      rw [h3]
  · exact .inr ⟨A, r, c, B, hl, hA, hr, he, hw⟩

/-- C6: For every rule set containing a rule whose evaluate returns an
error, the evaluation pass still completes and returns a result: the failing
rule contributes nothing to the total or the hit list, every other rule's
contribution (hits, total, hit counters) is exactly what it would be without
the failing rule, and no error is returned to the caller. -/
theorem evaluate_error_isolation
    (A B : List (FraudRule × RuleConfig)) (bad : FraudRule) (cfg : RuleConfig)
    (m : RuleMetrics) (ctx : RuleContext) (e : String)
    (hbad : bad.evaluate ctx = .error e) :
    ∃ eng1 res1 eng2 res2,
      RuleEngine.evaluate ⟨A ++ (bad, cfg) :: B, m⟩ ctx = .ok (eng1, res1) ∧
      RuleEngine.evaluate ⟨A ++ B, m⟩ ctx = .ok (eng2, res2) ∧
      res1.hits = res2.hits ∧
      res1.total_score = res2.total_score ∧
      eng1.metrics = eng2.metrics ∧
      res1.rule_count = res2.rule_count + (if cfg.enabled then 1 else 0) := by
  obtain ⟨P1, P2, h1, h2⟩ := insertionSort_middle prioDesc A B (bad, cfg)
  have hhit : hitOf ctx (bad, cfg) = none := by
    by_cases hen : cfg.enabled <;> simp [hitOf, hbad, hen]
  have hname : hitNameOf ctx (bad, cfg) = none := by
    by_cases hen : cfg.enabled <;> simp [hitNameOf, hbad, hen]
  have hcontrib : ruleContribution ctx (bad, cfg) = 0 := by
    by_cases hen : cfg.enabled <;> simp [ruleContribution, hbad, hen]
  refine ⟨_, _, _, _, evaluate_eq _ ctx, evaluate_eq _ ctx, ?_, ?_, ?_, ?_⟩
  · show List.insertionSort scoreDesc
        ((List.insertionSort prioDesc (A ++ (bad, cfg) :: B)).filterMap (hitOf ctx)) =
      List.insertionSort scoreDesc
        ((List.insertionSort prioDesc (A ++ B)).filterMap (hitOf ctx))
    rw [h1, h2]
    simp [List.filterMap_append, List.filterMap_cons, hhit]
  · show ((List.insertionSort prioDesc (A ++ (bad, cfg) :: B)).map
        (ruleContribution ctx)).sum =
      ((List.insertionSort prioDesc (A ++ B)).map (ruleContribution ctx)).sum
    rw [h1, h2]
    simp [hcontrib]
  · show (⟨m.total_evaluations + 1, _⟩ : RuleMetrics) = ⟨m.total_evaluations + 1, _⟩
    rw [h1, h2]
    simp [List.filterMap_append, List.filterMap_cons, hname]
  · show (List.insertionSort prioDesc (A ++ (bad, cfg) :: B)).countP
        (fun rc => rc.2.enabled) =
      (List.insertionSort prioDesc (A ++ B)).countP (fun rc => rc.2.enabled) +
        (if cfg.enabled then 1 else 0)
    rw [h1, h2]
    by_cases hen : cfg.enabled
    · simp [List.countP_append, List.countP_cons, hen]
      omega
    · simp [List.countP_append, List.countP_cons, hen]

/-- A rule that always fails with an operational error. -/
def badRuleEx : FraudRule where
  name := "always_fails"
  priority := .Critical
  evaluate := fun _ => .error "feature store unreachable"

/-- Witness for C6 at a concrete engine: the failing rule is registered next
to the suspicious-amount rule over a zero-amount order. -/
theorem evaluate_error_isolation_witness :
    badRuleEx.evaluate ctxEx = .error "feature store unreachable" ∧
    ∃ eng1 res1 eng2 res2,
      RuleEngine.evaluate
          ⟨[] ++ (badRuleEx, ⟨"always_fails", true, .Critical, 3⟩) ::
            [(SuspiciousAmountRule, ⟨"suspicious_amount", true, .Medium, 1⟩)], ⟨0, []⟩⟩
          ctxEx = .ok (eng1, res1) ∧
      RuleEngine.evaluate
          ⟨[] ++ [(SuspiciousAmountRule, ⟨"suspicious_amount", true, .Medium, 1⟩)], ⟨0, []⟩⟩
          ctxEx = .ok (eng2, res2) ∧
      res1.hits = res2.hits ∧
      res1.total_score = res2.total_score ∧
      eng1.metrics = eng2.metrics ∧
      res1.rule_count = res2.rule_count +
        (if (⟨"always_fails", true, .Critical, 3⟩ : RuleConfig).enabled then 1 else 0) :=
  ⟨rfl, evaluate_error_isolation []
    [(SuspiciousAmountRule, ⟨"suspicious_amount", true, .Medium, 1⟩)]
    badRuleEx ⟨"always_fails", true, .Critical, 3⟩ ⟨0, []⟩ ctxEx
    "feature store unreachable" rfl⟩

/-- A rule whose finding carries a negative raw score.  Nothing in the
engine or in `RuleHit` (`score: f64`) restricts raw scores to be
nonnegative. -/
def negRuleEx : FraudRule where
  name := "negative_score_rule"
  priority := .Medium
  evaluate := fun _ => .ok (some ⟨"negative_score_rule", -10, "penalty"⟩)

/-- C8 counterexample: raising the weight of `negRuleEx` from 1 to 2 while
holding everything else fixed strictly decreases `total_score` (from -10 to
-20), so the claim as stated — for every rule set — fails. -/
theorem weight_monotonicity_counterexample :
    totalScoreOf (RuleEngine.evaluate
        ⟨[(negRuleEx, ⟨"negative_score_rule", true, .Medium, 2⟩)], ⟨0, []⟩⟩ ctxEx) <
      totalScoreOf (RuleEngine.evaluate
        ⟨[(negRuleEx, ⟨"negative_score_rule", true, .Medium, 1⟩)], ⟨0, []⟩⟩ ctxEx) := by
  have h2 : totalScoreOf (RuleEngine.evaluate
      ⟨[(negRuleEx, ⟨"negative_score_rule", true, .Medium, 2⟩)], ⟨0, []⟩⟩ ctxEx) = -20 := by
    simp [totalScoreOf, RuleEngine.evaluate, evalStep, negRuleEx, List.insertionSort,
      List.orderedInsert]
    norm_num
  have h1 : totalScoreOf (RuleEngine.evaluate
      ⟨[(negRuleEx, ⟨"negative_score_rule", true, .Medium, 1⟩)], ⟨0, []⟩⟩ ctxEx) = -10 := by
    simp [totalScoreOf, RuleEngine.evaluate, evalStep, negRuleEx, List.insertionSort,
      List.orderedInsert]
  rw [h1, h2]
  norm_num

/-- C8 amended: for every rule set, context, and fixed feature-store
responses, increasing the configured weight of one rule while holding
everything else fixed never decreases `total_score`, provided that rule's
raw score (when it returns a finding) is nonnegative. -/
theorem weight_monotonicity_of_nonneg_score
    (A B : List (FraudRule × RuleConfig)) (rule : FraudRule) (c : RuleConfig)
    (w2 : ℚ) (m : RuleMetrics) (ctx : RuleContext)
    (hscore : ∀ h, rule.evaluate ctx = .ok (some h) → 0 ≤ h.score)
    (hw : c.weight ≤ w2) :
    totalScoreOf (RuleEngine.evaluate ⟨A ++ (rule, c) :: B, m⟩ ctx) ≤
      totalScoreOf (RuleEngine.evaluate ⟨A ++ (rule, { c with weight := w2 }) :: B, m⟩ ctx) := by
  have key : ∀ (c2 : RuleConfig),
      totalScoreOf (RuleEngine.evaluate ⟨A ++ (rule, c2) :: B, m⟩ ctx) =
        (A.map (ruleContribution ctx)).sum + ruleContribution ctx (rule, c2) +
          (B.map (ruleContribution ctx)).sum := by
    intro c2
    rw [evaluate_eq]
    show ((List.insertionSort prioDesc (A ++ (rule, c2) :: B)).map
        (ruleContribution ctx)).sum = _
    rw [((List.perm_insertionSort prioDesc (A ++ (rule, c2) :: B)).map
      (ruleContribution ctx)).sum_eq]
    simp [add_assoc]
  rw [key c, key { c with weight := w2 }]
  have hcc : ruleContribution ctx (rule, c) ≤
      ruleContribution ctx (rule, { c with weight := w2 }) := by
    unfold ruleContribution
    by_cases hen : c.enabled
    · simp only [hen, if_true]
      rcases hev : rule.evaluate ctx with err | o
      · simp
      · rcases o with _ | hit
        · simp
        · simpa using mul_le_mul_of_nonneg_left hw (hscore hit hev)
    · simp [hen]
  linarith

/-- A rule with a fixed positive raw score. -/
def posRuleEx : FraudRule where
  name := "positive_score_rule"
  priority := .Medium
  evaluate := fun _ => .ok (some ⟨"positive_score_rule", 50, "hit"⟩)

/-- Witness for the amended C8 at a concrete engine: weight 1 against
weight 2 on a rule of raw score 50. -/
theorem weight_monotonicity_of_nonneg_score_witness :
    totalScoreOf (RuleEngine.evaluate
        ⟨[] ++ (posRuleEx, ⟨"positive_score_rule", true, .Medium, 1⟩) :: [], ⟨0, []⟩⟩ ctxEx) ≤
      totalScoreOf (RuleEngine.evaluate
        ⟨[] ++ (posRuleEx,
          { (⟨"positive_score_rule", true, .Medium, 1⟩ : RuleConfig) with weight := 2 }) :: [],
          ⟨0, []⟩⟩ ctxEx) :=
  weight_monotonicity_of_nonneg_score [] [] posRuleEx
    ⟨"positive_score_rule", true, .Medium, 1⟩ 2 ⟨0, []⟩ ctxEx
    (fun h heq => by
      have hh : h = ⟨"positive_score_rule", 50, "hit"⟩ := by
        have : Except.ok (some (⟨"positive_score_rule", 50, "hit"⟩ : RuleHit)) =
            Except.ok (some h) := heq
        simpa using this.symm
      rw [hh]
      norm_num)
    (by norm_num)

/-- C2 (code bug, `src/scoring/mod.rs` line 83, marked
`TODO: Get actual weight from rule config`): at a concrete failing input —
one rule of raw score 50 configured with weight 2 — the audit entry records
`score = 100` (the already-weighted score, not the raw 50), `weight = 1`
(the hardcoded placeholder, not the applied 2) and `weighted_score = 100`,
so the audit trail does not reflect the true applied weight. -/
theorem rule_contribution_weight_is_placeholder :
    ((ScoringEngine.mk ScoringConfig.default).calculate_score
        (resultOf (RuleEngine.evaluate
          ⟨[(posRuleEx, ⟨"positive_score_rule", true, .Medium, 2⟩)], ⟨0, []⟩⟩
          ctxEx))).rule_contributions =
      [⟨"positive_score_rule", 100, 1, 100, "hit"⟩] ∧
    posRuleEx.evaluate ctxEx = .ok (some ⟨"positive_score_rule", 50, "hit"⟩) ∧
    (⟨"positive_score_rule", true, .Medium, 2⟩ : RuleConfig).weight = 2 := by
  refine ⟨?_, rfl, rfl⟩
  simp [ScoringEngine.calculate_score, resultOf, RuleEngine.evaluate, evalStep,
    posRuleEx, List.insertionSort, List.orderedInsert]
  norm_num

theorem min_max_swap {α : Type} [LinearOrder α] {a b c : α} (hbc : b ≤ c) :
    min (max a b) c = max b (min a c) := by
  rcases le_total a b with h | h
  · rw [max_eq_right h, min_eq_left (le_trans h hbc), min_eq_left hbc, max_eq_left h]
  · rcases le_total a c with h2 | h2
    · rw [max_eq_left h, min_eq_left h2, max_eq_right h]
    · rw [max_eq_left h, min_eq_right h2, max_eq_right hbc]

/-- C3: With `total = base_score + rule total`: if normalization is enabled
the risk score equals `max_score / (1 + exp (-total/20))` clamped to
`[0.01, max_score]` and in particular lies in that interval for any total;
if normalization is disabled the risk score equals `min total max_score`.
(The clamp needs `0.01 ≤ max_score`, which the default config satisfies.) -/
theorem risk_score_normalization_spec (se : ScoringEngine) (r : RuleEvaluationResult)
    (hms : (0.01 : ℚ) ≤ se.config.max_score) :
    (se.config.normalize_scores = true →
      (se.calculate_score r).risk_score =
        max 0.01 (min ((se.config.max_score : ℝ) /
            (1 + Real.exp (-((se.config.base_score + r.total_score : ℚ) : ℝ) / 20)))
          (se.config.max_score : ℝ)) ∧
      0.01 ≤ (se.calculate_score r).risk_score ∧
      (se.calculate_score r).risk_score ≤ (se.config.max_score : ℝ)) ∧
    (se.config.normalize_scores = false →
      (se.calculate_score r).risk_score =
        min ((se.config.base_score + r.total_score : ℚ) : ℝ) (se.config.max_score : ℝ)) := by
  have hM : (0.01 : ℝ) ≤ (se.config.max_score : ℝ) := by
    have hc1 : ((0.01 : ℚ) : ℝ) ≤ (se.config.max_score : ℝ) := Rat.cast_le.mpr hms
    have hc2 : ((0.01 : ℚ) : ℝ) = (0.01 : ℝ) := by norm_num
    rw [hc2] at hc1
    exact hc1
  constructor
  · intro hnorm
    have hrs : (se.calculate_score r).risk_score =
        se.normalize_score ((se.config.base_score + r.total_score : ℚ) : ℝ) := by
      simp [ScoringEngine.calculate_score, hnorm]
    have heq : se.normalize_score ((se.config.base_score + r.total_score : ℚ) : ℝ) =
        max 0.01 (min ((se.config.max_score : ℝ) /
            (1 + Real.exp (-((se.config.base_score + r.total_score : ℚ) : ℝ) / 20)))
          (se.config.max_score : ℝ)) := by
      unfold ScoringEngine.normalize_score
      rw [mul_one_div, min_max_swap hM]
    refine ⟨hrs.trans heq, ?_, ?_⟩
    · rw [hrs]
      unfold ScoringEngine.normalize_score
      exact le_min (le_max_right _ _) hM
    · rw [hrs]
      unfold ScoringEngine.normalize_score
      exact min_le_right _ _
  · intro hnorm
    simp [ScoringEngine.calculate_score, hnorm]

/-- Witness for C3 at the default scoring config and an empty evaluation
result. -/
theorem risk_score_normalization_spec_witness :
    (0.01 : ℚ) ≤ ScoringConfig.default.max_score ∧
    0.01 ≤ ((ScoringEngine.mk ScoringConfig.default).calculate_score ⟨[], 0, 0⟩).risk_score ∧
    ((ScoringEngine.mk ScoringConfig.default).calculate_score ⟨[], 0, 0⟩).risk_score ≤
      ((ScoringEngine.mk ScoringConfig.default).config.max_score : ℝ) := by
  have hms : (0.01 : ℚ) ≤ ScoringConfig.default.max_score := by
    norm_num [ScoringConfig.default]
  have happ := (risk_score_normalization_spec
    (ScoringEngine.mk ScoringConfig.default) ⟨[], 0, 0⟩ hms).1 rfl
  exact ⟨hms, happ.2.1, happ.2.2⟩

/-- C4: For every normalized score the risk level is determined by the three
ascending thresholds as half-open intervals — below low is Low, low up to
medium is Medium, medium up to high is High, otherwise VeryHigh — and at the
default thresholds 10/30/70 the boundary scores map as the spec's table
states, with no gaps and no overlaps. -/
theorem calculate_risk_level_partition (se : ScoringEngine) (s : ℝ)
    (h1 : se.config.risk_thresholds.low ≤ se.config.risk_thresholds.medium)
    (h2 : se.config.risk_thresholds.medium ≤ se.config.risk_thresholds.high) :
    ((se.calculate_risk_level s = .Low ↔ s < (se.config.risk_thresholds.low : ℝ)) ∧
     (se.calculate_risk_level s = .Medium ↔
        (se.config.risk_thresholds.low : ℝ) ≤ s ∧
          s < (se.config.risk_thresholds.medium : ℝ)) ∧
     (se.calculate_risk_level s = .High ↔
        (se.config.risk_thresholds.medium : ℝ) ≤ s ∧
          s < (se.config.risk_thresholds.high : ℝ)) ∧
     (se.calculate_risk_level s = .VeryHigh ↔
        (se.config.risk_thresholds.high : ℝ) ≤ s)) ∧
    ((ScoringEngine.mk ScoringConfig.default).calculate_risk_level 9.99 = .Low ∧
     (ScoringEngine.mk ScoringConfig.default).calculate_risk_level 10 = .Medium ∧
     (ScoringEngine.mk ScoringConfig.default).calculate_risk_level 29.99 = .Medium ∧
     (ScoringEngine.mk ScoringConfig.default).calculate_risk_level 30 = .High ∧
     (ScoringEngine.mk ScoringConfig.default).calculate_risk_level 69.99 = .High ∧
     (ScoringEngine.mk ScoringConfig.default).calculate_risk_level 70 = .VeryHigh) := by
  have hml : ((se.config.risk_thresholds.low : ℚ) : ℝ) ≤
      (se.config.risk_thresholds.medium : ℝ) := by exact_mod_cast h1
  have hmh : ((se.config.risk_thresholds.medium : ℚ) : ℝ) ≤
      (se.config.risk_thresholds.high : ℝ) := by exact_mod_cast h2
  constructor
  · unfold ScoringEngine.calculate_risk_level
    split_ifs with ha hb hc
    · exact ⟨iff_of_true rfl ha,
        iff_of_false (by simp) (fun hp => absurd hp.1 (not_le.mpr ha)),
        iff_of_false (by simp)
          (fun hp => absurd hp.1 (not_le.mpr (lt_of_lt_of_le ha hml))),
        iff_of_false (by simp)
          (not_le.mpr (lt_of_lt_of_le ha (le_trans hml hmh)))⟩
    · exact ⟨iff_of_false (by simp) ha,
        iff_of_true rfl ⟨not_lt.mp ha, hb⟩,
        iff_of_false (by simp) (fun hp => absurd hp.1 (not_le.mpr hb)),
        iff_of_false (by simp) (not_le.mpr (lt_of_lt_of_le hb hmh))⟩
    · exact ⟨iff_of_false (by simp) ha,
        iff_of_false (by simp) (fun hp => absurd hp.2 hb),
        iff_of_true rfl ⟨not_lt.mp hb, hc⟩,
        iff_of_false (by simp) (not_le.mpr hc)⟩
    · exact ⟨iff_of_false (by simp) ha,
        iff_of_false (by simp) (fun hp => absurd hp.2 hb),
        iff_of_false (by simp) (fun hp => absurd hp.2 hc),
        iff_of_true rfl (not_lt.mp hc)⟩
  · refine ⟨?_, ?_, ?_, ?_, ?_, ?_⟩ <;>
      norm_num [ScoringEngine.calculate_risk_level, ScoringConfig.default,
        RiskThresholds.default]

/-- Witness for C9 at the concrete context `ctxEx`, whose order amount is 1:
the rule returns no finding. -/
theorem suspicious_amount_rule_spec_witness :
    SuspiciousAmountRule.evaluate ctxEx = .ok none :=
  (suspicious_amount_rule_spec ctxEx).2.2.2.1 1 rfl (by norm_num) (by norm_num)

/-- A concrete one-rule engine. -/
def engEx : RuleEngine :=
  ⟨[(posRuleEx, ⟨"positive_score_rule", true, .Medium, 1⟩)], ⟨0, []⟩⟩

/-- Witness for C10 at a concrete engine and a name that matches no rule:
the metrics are untouched. -/
theorem set_rule_ops_frame_witness :
    (engEx.set_rule_enabled "no_such_rule" false).metrics = engEx.metrics :=
  (set_rule_ops_frame engEx "no_such_rule" false 0).1

/-- Witness for C4 at the default thresholds and the boundary score 9.99. -/
theorem calculate_risk_level_partition_witness :
    (ScoringEngine.mk ScoringConfig.default).calculate_risk_level 9.99 = .Low :=
  (calculate_risk_level_partition (ScoringEngine.mk ScoringConfig.default) 9.99
    (by norm_num [ScoringConfig.default, RiskThresholds.default])
    (by norm_num [ScoringConfig.default, RiskThresholds.default])).2.1

end Fusegu
